import Mathlib

/-!
Verification of the traefik-forward-filter request-mediation plugin.

The Go sources are shallowly embedded here:
- header maps (net/http Header) become association lists of canonical-cased
  keys to value lists, with Set / Del / Get / raw-index operations mirroring
  the textproto MIMEHeader operations (Go maps have unique keys; the list
  model keeps the first matching entry authoritative);
- writeHeader (both historical variants, src/unnamed/part_000 and
  src/unnamed/part_001) becomes a pure function from the inbound request to
  the shadow-request header map; the part_000 variant returns Option because
  it writes into the pooled request header map, which is nil when handed out,
  and a write to a nil Go map faults;
- connectionheader.Remover / removeConnectionHeaders become a pure sanitize
  function on header maps;
- ForwardFilter.ServeHTTP becomes a function from the configuration, the
  (already sanitized) inbound request and the dispatch outcome of the shadow
  request to the list of observable events it performs (downstream handler
  invocation, response-writer header set, status write, body write and close,
  log line), in the order the code performs them.
-/

namespace ForwardFilter

/-- Valid HTTP token characters, as in the Go textproto canonicalization
table: alphanumerics plus the fifteen symbol bytes 33, 35, 36, 37, 38, 39,
42, 43, 45, 46, 94, 95, 96, 124, 126. -/
def isTokenChar (c : Char) : Bool :=
  c.isAlphanum ||
    c ∈ [Char.ofNat 33, Char.ofNat 35, Char.ofNat 36, Char.ofNat 37,
         Char.ofNat 38, Char.ofNat 39, Char.ofNat 42, Char.ofNat 43,
         Char.ofNat 45, Char.ofNat 46, Char.ofNat 94, Char.ofNat 95,
         Char.ofNat 96, Char.ofNat 124, Char.ofNat 126]

/-- Case-map the characters of a header key: uppercase at the start of the
key and after each hyphen, lowercase elsewhere, following
textproto.CanonicalMIMEHeaderKey. -/
def canonicalKeyAux : Bool → List Char → List Char
  | _, [] => []
  | up, c :: cs =>
    (if up then c.toUpper else c.toLower) :: canonicalKeyAux (c = '-') cs

/-- Canonical MIME header key: case-mapped when every character is a valid
token character, returned unchanged otherwise, as in
textproto.CanonicalMIMEHeaderKey. -/
def canonicalKey (s : String) : String :=
  if s.data.all isTokenChar then ⟨canonicalKeyAux true s.data⟩ else s

/-- A header map: association list from raw keys to value lists, modelling
the net/http Header map (unique keys in any map produced by Go). -/
abbrev Headers := List (String × List String)

/-- Raw map lookup h[k] on the exact key, as in Go map indexing. -/
def hLookup (h : Headers) (k : String) : Option (List String) :=
  (h.find? (fun p => decide (p.1 = k))).map Prod.snd

/-- Raw map index returning the zero value (empty list) when absent. -/
def hIndex (h : Headers) (k : String) : List String :=
  (hLookup h k).getD []

/-- Raw map update h[k] = vs: replace the entry in place or append it. -/
def hSetRaw : Headers → String → List String → Headers
  | [], k, vs => [(k, vs)]
  | p :: t, k, vs => if p.1 = k then (k, vs) :: t else p :: hSetRaw t k vs

/-- Header.Set: store a single value under the canonical key. -/
def hSet (h : Headers) (k v : String) : Headers :=
  hSetRaw h (canonicalKey k) [v]

/-- Raw deletion of a key from the map: keep exactly the entries whose key
differs. -/
def hDelRaw : Headers → String → Headers
  | [], _ => []
  | p :: t, k => if p.1 = k then hDelRaw t k else p :: hDelRaw t k

/-- Header.Del: delete the canonical key. -/
def hDel (h : Headers) (k : String) : Headers :=
  hDelRaw h (canonicalKey k)

/-- Header.Get: first value stored under the canonical key, empty string
when the key is absent or has no values. -/
def hGet (h : Headers) (k : String) : String :=
  match hLookup h (canonicalKey k) with
  | some (v :: _) => v
  | _ => ""

/-- The inbound request fields read by the code under verification. -/
structure Request where
  header : Headers
  method : String
  host : String
  requestURI : String
  remoteAddr : String
  tls : Bool
  deriving DecidableEq, Repr

/-- Index of the last occurrence of a character in a list. -/
def lastIdxOf : List Char → Char → Option Nat
  | [], _ => none
  | x :: xs, c =>
    match lastIdxOf xs c with
    | some i => some (i + 1)
    | none => if x = c then some 0 else none

/-- Host portion of a host-colon-port address, none on the error cases of
net.SplitHostPort used here: no colon at all, or a colon inside an
unbracketed host. A bracketed IPv6 host is unwrapped. -/
def splitHostPort (s : String) : Option String :=
  match lastIdxOf s.data ':' with
  | none => none
  | some i =>
    let host := s.data.take i
    if host.head? = some '[' ∧ host.getLast? = some ']' then
      some ⟨(host.drop 1).dropLast⟩
    else if host.contains ':' then none
    else some ⟨host⟩

/-- Linear whitespace as trimmed by textproto.TrimString: space and tab. -/
def isLWS (c : Char) : Bool := c = ' ' || c = Char.ofNat 9

/-- Trim leading and trailing spaces and tabs, as textproto.TrimString. -/
def trimString (s : String) : String :=
  ⟨((s.data.dropWhile isLWS).reverse.dropWhile isLWS).reverse⟩

/-- Character-level splitter accumulating the current field in reverse. -/
def splitCommaAux : List Char → List Char → List String
  | [], acc => [⟨acc.reverse⟩]
  | c :: cs, acc =>
    if c = ',' then ⟨acc.reverse⟩ :: splitCommaAux cs []
    else splitCommaAux cs (c :: acc)

/-- Split on every comma, keeping empty fields, as strings.Split. -/
def splitComma (s : String) : List String :=
  splitCommaAux s.data []

/-- The fixed hop-by-hop header list of the source (canonical casing). -/
def hopHeaders : List String :=
  ["Connection", "Keep-Alive", "Te", "Trailers", "Transfer-Encoding", "Upgrade"]

/-- Delete every header nominated by one Connection value: split the value
on commas, trim each field, and delete the nonempty ones. -/
def delNominated (acc : Headers) (toks : List String) : Headers :=
  toks.foldl (fun a sf => if trimString sf ≠ "" then hDel a (trimString sf) else a) acc

/-- removeConnectionHeaders from src/connectionheader/connectionheader.go:
for every value of the Connection key (raw index, captured before any
deletion), delete every nonempty trimmed comma-separated field. -/
def removeConnectionHeaders (h : Headers) : Headers :=
  (hIndex h "Connection").foldl (fun acc f => delNominated acc (splitComma f)) h

/-- The Remover wrapper body: delete the Connection-nominated headers, then
the Connection header itself, before handing the request on. -/
def sanitize (h : Headers) : Headers :=
  hDel (removeConnectionHeaders h) "Connection"

/-- The copy loop of writeHeader with an empty allowlist: for every entry
of the source map, assign dst[k] = append(req.Header[k], vv...), which
concatenates the ranged value list onto a fresh read of the same key. -/
def copyAllHeaders (dst src : Headers) : Headers :=
  src.foldl (fun acc p => hSetRaw acc p.1 (hIndex src p.1 ++ p.2)) dst

/-- The allowlist branch of writeHeader: for each allowed name whose Get on
the inbound request is nonempty, Set it on a fresh map. -/
def allowlistHeaders (src : Headers) (allowed : List String) : Headers :=
  allowed.foldl (fun acc k => if hGet src k ≠ "" then hSet acc k (hGet src k) else acc) []

/-- X-Forwarded-For synthesis in writeHeader: when the peer address splits
into host and port, set X-Forwarded-For to that host, prefixed by the
comma-space-joined prior chain when the inbound request carries one. -/
def setXffHeader (req : Request) (h : Headers) : Headers :=
  match splitHostPort req.remoteAddr with
  | some clientIP =>
    hSet h "X-Forwarded-For"
      (match hLookup req.header "X-Forwarded-For" with
       | some prior => String.intercalate ", " prior ++ ", " ++ clientIP
       | none => clientIP)
  | none => h

/-- X-Forwarded-Proto synthesis in writeHeader: pass through the inbound
value when nonempty, otherwise infer from the TLS state. -/
def setXfProto (req : Request) (h : Headers) : Headers :=
  if hGet req.header "X-Forwarded-Proto" ≠ "" then
    hSet h "X-Forwarded-Proto" (hGet req.header "X-Forwarded-Proto")
  else if req.tls then hSet h "X-Forwarded-Proto" "https"
  else hSet h "X-Forwarded-Proto" "http"

/-- The common tail of both writeHeader variants (identical lines in
src/unnamed/part_000 and src/unnamed/part_001): delete the fixed hop-by-hop
headers, set Host to the authority hostname, synthesize X-Forwarded-For,
X-Forwarded-Method, X-Forwarded-Host, X-Forwarded-Uri, X-Forwarded-Proto. -/
def finishForwardHeader (req : Request) (urlHostname : String) (h : Headers) : Headers :=
  setXfProto req
    (hSet
      (hSet
        (hSet
          (setXffHeader req (hSet (hopHeaders.foldl hDel h) "Host" urlHostname))
          "X-Forwarded-Method" req.method)
        "X-Forwarded-Host" req.host)
      "X-Forwarded-Uri" req.requestURI)

/-- writeHeader of src/unnamed/part_001: allocate a fresh header map, copy
all inbound headers (empty allowlist) or the allowed ones, then the common
tail. -/
def writeHeader001 (req : Request) (urlHostname : String) (allowed : List String) : Headers :=
  finishForwardHeader req urlHostname
    (if allowed.isEmpty then copyAllHeaders [] req.header
     else allowlistHeaders req.header allowed)

/-- writeHeader of src/unnamed/part_000: the empty-allowlist branch writes
into the header map the pooled request already carries; when that map is nil
(as handed out by the pool and its reset), the first map write faults, which
the model reports as none. The allowlist branch builds a fresh map and
assigns it, so it never faults. -/
def writeHeader000 (req : Request) (init : Option Headers) (urlHostname : String)
    (allowed : List String) : Option Headers :=
  if allowed.isEmpty then
    match init with
    | none => none
    | some h0 => some (finishForwardHeader req urlHostname (copyAllHeaders h0 req.header))
  else some (finishForwardHeader req urlHostname (allowlistHeaders req.header allowed))

/-- The configuration fields read by ServeHTTP (after New has resolved
defaults and canonicalized the allowlists). -/
structure Config where
  forwardHeaders : List (String × String)
  requestHeaders : List String
  requestWithBody : Bool
  responseHeaders : List String
  failurePolicy : String
  failureStatusCode : List Int

/-- The default failure status list installed by New when none is given. -/
def defaultFailureStatusCode : List Int := [500, 502, 503, 504]

/-- canonicalHeaders from src/forwardfilter.go: canonicalize every name. -/
def canonicalHeaders (headers : List String) : List String :=
  headers.map canonicalKey

/-- The authority response fields read by ServeHTTP. The content length is
an integer because net/http reports an unknown length as minus one. -/
structure AuthResponse where
  statusCode : Int
  status : String
  header : Headers
  body : String
  contentLength : Int
  deriving DecidableEq, Repr

/-- Outcome of client.Do on the shadow request: success with a response, or
a transport error optionally accompanied by a partial response. -/
inductive Dispatch where
  | ok (resp : AuthResponse)
  | fail (resp : Option AuthResponse)
  deriving DecidableEq, Repr

/-- Observable actions of ServeHTTP, in execution order: invocation of the
downstream handler with the request it sees, a header set on the response
writer, the single status write, the body copy, the body close, a log
line. -/
inductive Event where
  | nextInvoked (r : Request)
  | setRespHeader (k v : String)
  | wroteHeader (status : Int)
  | bodyWrite (body : String)
  | bodyClose
  | logged (msg : String)
  deriving DecidableEq, Repr

/-- The response-header allowlist loop on the relay path: one response-writer
header set per allowed name whose Get on the authority response is
nonempty. -/
def relayHeaderEvents (allow : List String) (respH : Headers) : List Event :=
  allow.filterMap (fun k =>
    if hGet respH k ≠ "" then some (Event.setRespHeader k (hGet respH k)) else none)

/-- The relay tail of the deferred block in ServeHTTP: allowlisted header
sets, the status write, and, only when the content length is positive, the
body copy followed by the body close. -/
def relayEvents (f : Config) (resp : AuthResponse) : List Event :=
  relayHeaderEvents f.responseHeaders resp.header
    ++ Event.wroteHeader resp.statusCode ::
      (if 0 < resp.contentLength then [Event.bodyWrite resp.body, Event.bodyClose] else [])

/-- The pass-path merge in ServeHTTP: for each allowed name whose Get on the
authority response is nonempty, Set it on the inbound request headers. -/
def mergeRespHeaders (allow : List String) (respH : Headers) (rh : Headers) : Headers :=
  allow.foldl (fun acc k => if hGet respH k ≠ "" then hSet acc k (hGet respH k) else acc) rh

/-- ServeHTTP decision flow of src/forwardfilter.go lines 150 to 211, as the
list of observable events. On a transport error the deferred block logs,
passes downstream under the ignore policy, writes a fixed 502 when no
response object exists, and otherwise falls through to the relay using the
partial response. On success, a 2xx response with zero content length takes
the pass path after merging allowlisted response headers onto the inbound
request; otherwise a status on the failure list is turned into an error,
which the deferred block routes downstream under ignore or to the relay
under any other policy; any remaining response is relayed. -/
def serveHTTP (f : Config) (r : Request) (d : Dispatch) : List Event :=
  match d with
  | .fail oresp =>
    Event.logged "forward error" ::
      (if f.failurePolicy = "ignore" then [Event.nextInvoked r]
       else match oresp with
            | none => [Event.wroteHeader 502]
            | some resp => relayEvents f resp)
  | .ok resp =>
    if 200 ≤ resp.statusCode ∧ resp.statusCode < 300 ∧ resp.contentLength = 0 then
      [Event.nextInvoked
        { r with header := mergeRespHeaders f.responseHeaders resp.header r.header }]
    else if resp.statusCode ∈ f.failureStatusCode then
      Event.logged resp.status ::
        (if f.failurePolicy = "ignore" then [Event.nextInvoked r] else relayEvents f resp)
    else relayEvents f resp

/-- The installed handler Remover(ff): sanitize the inbound headers in
place, then run the ServeHTTP decision flow. -/
def handle (f : Config) (r : Request) (d : Dispatch) : List Event :=
  serveHTTP f { r with header := sanitize r.header } d

/-- The shadow-request header map as dispatched by ServeHTTP: the
writeHeader result, then one X-Forwarded-prefixed Set per forwardHeaders
entry, then Content-Type mirrored from the inbound request when the body is
mirrored and the inbound value is nonempty. -/
def shadowHeader (f : Config) (r : Request) (urlHostname : String) : Headers :=
  let h := writeHeader001 r urlHostname f.requestHeaders
  let h := f.forwardHeaders.foldl
    (fun acc kv => hSet acc ("X-Forwarded-" ++ kv.1) kv.2) h
  if f.requestWithBody ∧ hGet r.header "Content-Type" ≠ "" then
    hSet h "Content-Type" (hGet r.header "Content-Type")
  else h

/-- The shadow-request header map produced for a raw inbound request: the
Remover sanitizes the inbound headers before ServeHTTP builds the shadow
request from them. -/
def shadowOfInbound (f : Config) (r : Request) (urlHostname : String) : Headers :=
  shadowHeader f { r with header := sanitize r.header } urlHostname

/-- Terminal actions: downstream-handler invocation and the status write. -/
def isTerminal : Event → Bool
  | .nextInvoked _ => true
  | .wroteHeader _ => true
  | _ => false

/-- A representative inbound request for the concrete instances. -/
def r0 : Request :=
  { header := [("Accept", ["text"]), ("X-Forwarded-For", ["1.1.1.1"])],
    method := "GET", host := "example.com", requestURI := "/p?q=1",
    remoteAddr := "2.2.2.2:5555", tls := false }

/-- The configuration New produces from an empty user configuration:
ignore policy, default failure status list, no allowlists. -/
def cfg0 : Config :=
  { forwardHeaders := [], requestHeaders := [], requestWithBody := false,
    responseHeaders := [], failurePolicy := "ignore",
    failureStatusCode := defaultFailureStatusCode }

/-- Default configuration with failure status list 503 only. -/
def cfgIgnore503 : Config := { cfg0 with failureStatusCode := [503] }

/-- Abort configuration with failure status list 503 only. -/
def cfgAbort503 : Config :=
  { cfg0 with failurePolicy := "abort", failureStatusCode := [503] }

/-- An approving authority response: 204 with zero content length. -/
def resp204 : AuthResponse :=
  { statusCode := 204, status := "204 No Content", header := [], body := "",
    contentLength := 0 }

/-- A failing authority response: 503 with a body. -/
def resp503 : AuthResponse :=
  { statusCode := 503, status := "503 Service Unavailable",
    header := [("X-Reason", ["down"])], body := "oops", contentLength := 4 }

/-- A substitute-content authority response: 200 with a three-byte body. -/
def resp200 : AuthResponse :=
  { statusCode := 200, status := "200 OK", header := [], body := "abc",
    contentLength := 3 }

/-- A 200 authority response with a body of unknown length: net/http
reports the content length as minus one (for example a chunked body). -/
def respChunked : AuthResponse :=
  { statusCode := 200, status := "200 OK", header := [], body := "abc",
    contentLength := -1 }

/-- An inbound request carrying a fixed hop-by-hop header but no Connection
header. -/
def rKeepAlive : Request :=
  { header := [("Keep-Alive", ["300"])], method := "GET", host := "h",
    requestURI := "/", remoteAddr := "9.9.9.9:1", tls := false }

/-- An inbound request with a single ordinary header. -/
def rAccept : Request :=
  { header := [("Accept", ["text"])], method := "GET", host := "h",
    requestURI := "/", remoteAddr := "9.9.9.9:1", tls := false }

/-- An inbound request whose Connection header nominates further headers. -/
def rConn : Request :=
  { header := [("Connection", ["Keep-Alive, Foo"]), ("Foo", ["bar"])],
    method := "GET", host := "h", requestURI := "/",
    remoteAddr := "9.9.9.9:1", tls := false }

lemma hLookup_cons (p : String × List String) (t : Headers) (k : String) :
    hLookup (p :: t) k = if p.1 = k then some p.2 else hLookup t k := by
  by_cases hp : p.1 = k <;> simp [hLookup, List.find?_cons, hp]

lemma hLookup_hSetRaw_self (h : Headers) (k : String) (vs : List String) :
    hLookup (hSetRaw h k vs) k = some vs := by
  induction h with
  | nil => simp [hSetRaw, hLookup_cons, hLookup]
  | cons p t ih =>
    by_cases hp : p.1 = k
    · simp [hSetRaw, hp, hLookup_cons]
    · simp [hSetRaw, hp, hLookup_cons, ih]

lemma hLookup_hSetRaw_ne (h : Headers) (k k2 : String) (vs : List String)
    (hne : k2 ≠ k) : hLookup (hSetRaw h k vs) k2 = hLookup h k2 := by
  induction h with
  | nil => simp [hSetRaw, hLookup_cons, hLookup, Ne.symm hne]
  | cons p t ih =>
    by_cases hp : p.1 = k
    · simp [hSetRaw, hp, hLookup_cons, Ne.symm hne]
    · simp [hSetRaw, hp, hLookup_cons, ih]

lemma hLookup_hDelRaw_self (h : Headers) (k : String) :
    hLookup (hDelRaw h k) k = none := by
  induction h with
  | nil => simp [hDelRaw, hLookup]
  | cons p t ih =>
    by_cases hp : p.1 = k
    · simp [hDelRaw, hp, ih]
    · simp [hDelRaw, hp, hLookup_cons, ih]

lemma hLookup_hDelRaw_ne (h : Headers) (k k2 : String) (hne : k2 ≠ k) :
    hLookup (hDelRaw h k) k2 = hLookup h k2 := by
  induction h with
  | nil => simp [hDelRaw]
  | cons p t ih =>
    by_cases hp : p.1 = k
    · have hp2 : p.1 ≠ k2 := by rw [hp]; exact Ne.symm hne
      simp [hDelRaw, hp, hLookup_cons, hp2, ih, Ne.symm hne]
    · simp [hDelRaw, hp, hLookup_cons, ih]

lemma hLookup_hSet_ne (h : Headers) (k2 : String) (v : String) (k : String)
    (hne : k ≠ canonicalKey k2) : hLookup (hSet h k2 v) k = hLookup h k := by
  simpa [hSet] using hLookup_hSetRaw_ne h (canonicalKey k2) k [v] hne

lemma hLookup_hDel_self (h : Headers) (k : String) :
    hLookup (hDel h k) (canonicalKey k) = none := by
  simpa [hDel] using hLookup_hDelRaw_self h (canonicalKey k)

lemma hLookup_hDel_none (h : Headers) (k k2 : String)
    (hk : hLookup h k = none) : hLookup (hDel h k2) k = none := by
  by_cases he : k = canonicalKey k2
  · rw [he, hLookup_hDel_self]
  · rw [hDel, hLookup_hDelRaw_ne h (canonicalKey k2) k he, hk]

lemma hLookup_hSet_none (h : Headers) (k2 v k : String)
    (hk : hLookup h k = none) (hne : k ≠ canonicalKey k2) :
    hLookup (hSet h k2 v) k = none := by
  rw [hLookup_hSet_ne h k2 v k hne, hk]

lemma foldl_hDel_none (l : List String) (h : Headers) (k : String)
    (hk : hLookup h k = none) : hLookup (l.foldl hDel h) k = none := by
  induction l generalizing h with
  | nil => simpa using hk
  | cons x xs ih => exact ih (hDel h x) (hLookup_hDel_none h k x hk)

lemma foldl_hDel_mem (l : List String) (h : Headers) (k : String)
    (hmem : k ∈ l) (hck : canonicalKey k = k) :
    hLookup (l.foldl hDel h) k = none := by
  induction l generalizing h with
  | nil => cases hmem
  | cons x xs ih =>
    rcases List.mem_cons.mp hmem with he | ht
    · subst he
      refine foldl_hDel_none xs (hDel h k) k ?_
      have hs := hLookup_hDel_self h k
      rwa [hck] at hs
    · exact ih (hDel h x) ht

lemma delNominated_none (toks : List String) (acc : Headers) (k : String)
    (hk : hLookup acc k = none) : hLookup (delNominated acc toks) k = none := by
  induction toks generalizing acc with
  | nil => simpa [delNominated] using hk
  | cons x xs ih =>
    simp only [delNominated, List.foldl_cons]
    by_cases hx : trimString x ≠ ""
    · rw [if_pos hx]
      exact ih (hDel acc (trimString x)) (hLookup_hDel_none acc k _ hk)
    · rw [if_neg hx]
      exact ih acc hk

lemma delNominated_mem (toks : List String) (acc : Headers) (t : String)
    (ht : t ∈ toks) (hne : trimString t ≠ "") :
    hLookup (delNominated acc toks) (canonicalKey (trimString t)) = none := by
  induction toks generalizing acc with
  | nil => cases ht
  | cons x xs ih =>
    rcases List.mem_cons.mp ht with he | hmem
    · subst he
      simp only [delNominated, List.foldl_cons, if_pos hne]
      exact delNominated_none xs _ _ (hLookup_hDel_self acc (trimString t))
    · simp only [delNominated, List.foldl_cons]
      split
      · exact ih (hDel acc (trimString x)) hmem
      · exact ih acc hmem

lemma connFold_none (l : List String) (acc : Headers) (k : String)
    (hk : hLookup acc k = none) :
    hLookup (l.foldl (fun a f => delNominated a (splitComma f)) acc) k = none := by
  induction l generalizing acc with
  | nil => simpa using hk
  | cons x xs ih => exact ih _ (delNominated_none (splitComma x) acc k hk)

lemma connFold_mem (l : List String) (acc : Headers) (v t : String)
    (hv : v ∈ l) (ht : t ∈ splitComma v) (hne : trimString t ≠ "") :
    hLookup (l.foldl (fun a f => delNominated a (splitComma f)) acc)
      (canonicalKey (trimString t)) = none := by
  induction l generalizing acc with
  | nil => cases hv
  | cons x xs ih =>
    rcases List.mem_cons.mp hv with he | hmem
    · subst he
      exact connFold_none xs _ _ (delNominated_mem (splitComma v) acc t ht hne)
    · exact ih (delNominated acc (splitComma x)) hmem

lemma ck_hop : ∀ hh ∈ hopHeaders, canonicalKey hh = hh := by decide

lemma ck_connection : canonicalKey "Connection" = "Connection" := by decide

lemma hop_ne_setkeys : ∀ hh ∈ hopHeaders,
    hh ≠ canonicalKey "Host" ∧ hh ≠ canonicalKey "X-Forwarded-For" ∧
    hh ≠ canonicalKey "X-Forwarded-Method" ∧ hh ≠ canonicalKey "X-Forwarded-Host" ∧
    hh ≠ canonicalKey "X-Forwarded-Uri" ∧ hh ≠ canonicalKey "X-Forwarded-Proto" ∧
    hh ≠ canonicalKey "Content-Type" := by decide

lemma canonicalKey_data_head_X (k : String) :
    ((canonicalKey ("X-Forwarded-" ++ k)).data).head? = some 'X' := by
  have hd : ("X-Forwarded-" ++ k).data = 'X' :: ("-Forwarded-".data ++ k.data) := rfl
  unfold canonicalKey
  split
  · rw [hd]
    simp [canonicalKeyAux]
  · rw [hd]
    rfl

lemma hop_ne_xfwd (hh : String) (hmem : hh ∈ hopHeaders) (k : String) :
    hh ≠ canonicalKey ("X-Forwarded-" ++ k) := by
  intro he
  have hx := canonicalKey_data_head_X k
  rw [← he] at hx
  fin_cases hmem <;> exact absurd hx (by decide)

lemma hLookup_setXff_none (req : Request) (h : Headers) (k : String)
    (hk : hLookup h k = none) (hne : k ≠ canonicalKey "X-Forwarded-For") :
    hLookup (setXffHeader req h) k = none := by
  unfold setXffHeader
  split
  · exact hLookup_hSet_none h "X-Forwarded-For" _ k hk hne
  · exact hk

lemma hLookup_setXfProto_none (req : Request) (h : Headers) (k : String)
    (hk : hLookup h k = none) (hne : k ≠ canonicalKey "X-Forwarded-Proto") :
    hLookup (setXfProto req h) k = none := by
  unfold setXfProto
  split
  · exact hLookup_hSet_none h "X-Forwarded-Proto" _ k hk hne
  · split
    · exact hLookup_hSet_none h "X-Forwarded-Proto" _ k hk hne
    · exact hLookup_hSet_none h "X-Forwarded-Proto" _ k hk hne

lemma finish_no_hop (req : Request) (uh : String) (h : Headers) (hh : String)
    (hmem : hh ∈ hopHeaders) :
    hLookup (finishForwardHeader req uh h) hh = none := by
  obtain ⟨n1, n2, n3, n4, n5, n6, _⟩ := hop_ne_setkeys hh hmem
  have b0 : hLookup (hopHeaders.foldl hDel h) hh = none :=
    foldl_hDel_mem hopHeaders h hh hmem (ck_hop hh hmem)
  have b1 := hLookup_hSet_none _ "Host" uh hh b0 n1
  have b2 := hLookup_setXff_none req _ hh b1 n2
  have b3 := hLookup_hSet_none _ "X-Forwarded-Method" req.method hh b2 n3
  have b4 := hLookup_hSet_none _ "X-Forwarded-Host" req.host hh b3 n4
  have b5 := hLookup_hSet_none _ "X-Forwarded-Uri" req.requestURI hh b4 n5
  exact hLookup_setXfProto_none req _ hh b5 n6

lemma hLookup_fwdfold_none (l : List (String × String)) (h : Headers) (hh : String)
    (hmem : hh ∈ hopHeaders) (hk : hLookup h hh = none) :
    hLookup (l.foldl (fun acc kv => hSet acc ("X-Forwarded-" ++ kv.1) kv.2) h) hh = none := by
  induction l generalizing h with
  | nil => simpa using hk
  | cons x xs ih =>
    exact ih _ (hLookup_hSet_none h _ x.2 hh hk (hop_ne_xfwd hh hmem x.1))

lemma shadowHeader_no_hop (f : Config) (r : Request) (uh : String) (hh : String)
    (hmem : hh ∈ hopHeaders) : hLookup (shadowHeader f r uh) hh = none := by
  obtain ⟨_, _, _, _, _, _, n7⟩ := hop_ne_setkeys hh hmem
  have b0 : hLookup (writeHeader001 r uh f.requestHeaders) hh = none :=
    finish_no_hop r uh _ hh hmem
  have b1 := hLookup_fwdfold_none f.forwardHeaders _ hh hmem b0
  unfold shadowHeader
  split
  · exact hLookup_hSet_none _ "Content-Type" _ hh b1 n7
  · exact b1

lemma hGet_hSet_self (h : Headers) (k v : String) (hck : canonicalKey k = k) :
    hGet (hSet h k v) k = v := by
  unfold hGet hSet
  rw [hck, hLookup_hSetRaw_self]

lemma hGet_hSet_ne (h : Headers) (k2 v k : String)
    (hne : canonicalKey k ≠ canonicalKey k2) : hGet (hSet h k2 v) k = hGet h k := by
  unfold hGet hSet
  rw [hLookup_hSetRaw_ne _ _ _ _ hne]

lemma hGet_setXfProto_ne (req : Request) (h : Headers) (k : String)
    (hne : canonicalKey k ≠ canonicalKey "X-Forwarded-Proto") :
    hGet (setXfProto req h) k = hGet h k := by
  unfold setXfProto
  split
  · exact hGet_hSet_ne h "X-Forwarded-Proto" _ k hne
  · split
    · exact hGet_hSet_ne h "X-Forwarded-Proto" _ k hne
    · exact hGet_hSet_ne h "X-Forwarded-Proto" _ k hne

lemma hDelRaw_idem (h : Headers) (k : String) :
    hDelRaw (hDelRaw h k) k = hDelRaw h k := by
  induction h with
  | nil => rfl
  | cons p t ih =>
    by_cases hp : p.1 = k
    · simp [hDelRaw, hp, ih]
    · simp [hDelRaw, hp, ih]

lemma hDel_idem (h : Headers) (k : String) : hDel (hDel h k) k = hDel h k :=
  hDelRaw_idem h (canonicalKey k)

lemma hLookup_sanitize_connection (h : Headers) :
    hLookup (sanitize h) "Connection" = none := by
  have hs := hLookup_hDel_self (removeConnectionHeaders h) "Connection"
  rwa [ck_connection] at hs

lemma sanitize_nominated (h : Headers) (v t : String)
    (hv : v ∈ hIndex h "Connection") (ht : t ∈ splitComma v)
    (hne : trimString t ≠ "") :
    hLookup (sanitize h) (canonicalKey (trimString t)) = none := by
  unfold sanitize removeConnectionHeaders
  exact hLookup_hDel_none _ _ "Connection"
    (connFold_mem (hIndex h "Connection") h v t hv ht hne)

lemma mem_relayHeaderEvents {e : Event} {a : List String} {h : Headers}
    (hm : e ∈ relayHeaderEvents a h) : ∃ k v, e = Event.setRespHeader k v := by
  unfold relayHeaderEvents at hm
  rw [List.mem_filterMap] at hm
  obtain ⟨k, _, hf⟩ := hm
  by_cases hne : hGet h k ≠ ""
  · rw [if_pos hne] at hf
    exact ⟨k, hGet h k, (Option.some_inj.mp hf).symm⟩
  · rw [if_neg hne] at hf
    cases hf

lemma countP_relayHeaderEvents (a : List String) (h : Headers) :
    (relayHeaderEvents a h).countP isTerminal = 0 := by
  rw [List.countP_eq_zero]
  intro e he
  obtain ⟨k, v, rfl⟩ := mem_relayHeaderEvents he
  simp [isTerminal]

lemma countP_relayEvents (f : Config) (resp : AuthResponse) :
    (relayEvents f resp).countP isTerminal = 1 := by
  unfold relayEvents
  rw [List.countP_append, countP_relayHeaderEvents, List.countP_cons]
  split <;> simp [isTerminal, List.countP_cons]

lemma wroteHeader_mem_relayEvents (f : Config) (resp : AuthResponse) :
    Event.wroteHeader resp.statusCode ∈ relayEvents f resp := by
  unfold relayEvents
  exact List.mem_append_right _ (List.mem_cons_self _ _)

lemma bodyWrite_mem_relayEvents (f : Config) (resp : AuthResponse)
    (hcl : 0 < resp.contentLength) :
    Event.bodyWrite resp.body ∈ relayEvents f resp := by
  unfold relayEvents
  refine List.mem_append_right _ ?_
  rw [if_pos hcl]
  exact List.mem_cons_of_mem _ (List.mem_cons_self _ _)

lemma bodyClose_mem_relayEvents (f : Config) (resp : AuthResponse)
    (hcl : 0 < resp.contentLength) :
    Event.bodyClose ∈ relayEvents f resp := by
  unfold relayEvents
  refine List.mem_append_right _ ?_
  rw [if_pos hcl]
  simp

lemma nextInvoked_not_mem_relayEvents (f : Config) (resp : AuthResponse) (r2 : Request) :
    Event.nextInvoked r2 ∉ relayEvents f resp := by
  intro hm
  unfold relayEvents at hm
  rcases List.mem_append.mp hm with h1 | h2
  · obtain ⟨k, v, he⟩ := mem_relayHeaderEvents h1
    cases he
  · rcases List.mem_cons.mp h2 with he | h3
    · cases he
    · split at h3
      · simp at h3
      · cases h3

lemma setRespHeader_mem_relayEvents (f : Config) (resp : AuthResponse) (k : String)
    (hk : k ∈ f.responseHeaders) (hne : hGet resp.header k ≠ "") :
    Event.setRespHeader k (hGet resp.header k) ∈ relayEvents f resp := by
  unfold relayEvents
  refine List.mem_append_left _ ?_
  unfold relayHeaderEvents
  rw [List.mem_filterMap]
  exact ⟨k, hk, by rw [if_pos hne]⟩

/-- C2: for every inbound request, exactly one terminal action occurs in the
decision flow: either the downstream handler is invoked or a status is
written to the response writer, never zero and never both. -/
theorem serveHTTP_exactly_one_terminal (f : Config) (r : Request) (d : Dispatch) :
    (serveHTTP f r d).countP isTerminal = 1 := by
  cases d with
  | fail o =>
    simp only [serveHTTP, List.countP_cons]
    split
    · simp [isTerminal, List.countP_cons]
    · cases o with
      | none => simp [isTerminal, List.countP_cons]
      | some resp => simp [isTerminal, countP_relayEvents]
  | ok resp =>
    simp only [serveHTTP]
    split
    · simp [isTerminal, List.countP_cons]
    · split
      · simp only [List.countP_cons]
        split
        · simp [isTerminal, List.countP_cons]
        · simp [isTerminal, countP_relayEvents]
      · simp [countP_relayEvents]

/-- C8: the hop-by-hop sanitizer (remove Connection-nominated headers, then
remove Connection itself) is idempotent on every header collection. -/
theorem sanitize_idempotent (h : Headers) : sanitize (sanitize h) = sanitize h := by
  have h2 : hIndex (sanitize h) "Connection" = [] := by
    unfold hIndex
    rw [hLookup_sanitize_connection]
    rfl
  have h1 : removeConnectionHeaders (sanitize h) = sanitize h := by
    unfold removeConnectionHeaders
    rw [h2]
    rfl
  show hDel (removeConnectionHeaders (sanitize h)) "Connection" = sanitize h
  rw [h1]
  exact hDel_idem (removeConnectionHeaders h) "Connection"

/-- C5: on a transport-level dispatch failure, the ignore policy invokes the
downstream handler with the sanitized inbound request, and the abort policy
with no response object writes a fixed 502 status. -/
theorem transport_failure_policy (f : Config) (r : Request) (o : Option AuthResponse) :
    (f.failurePolicy = "ignore" →
      handle f r (.fail o) =
        [Event.logged "forward error",
         Event.nextInvoked { r with header := sanitize r.header }]) ∧
    (f.failurePolicy = "abort" →
      handle f r (.fail none) =
        [Event.logged "forward error", Event.wroteHeader 502]) := by
  constructor
  · intro hig
    simp [handle, serveHTTP, hig]
  · intro hab
    have hni : ¬f.failurePolicy = "ignore" := by
      rw [hab]; decide
    simp [handle, serveHTTP, hni]

/-- Witness for C5 at the default (ignore) configuration and a transport
failure without a partial response. -/
theorem transport_failure_policy_witness :
    handle cfg0 r0 (.fail none) =
      [Event.logged "forward error",
       Event.nextInvoked { r0 with header := sanitize r0.header }] :=
  (transport_failure_policy cfg0 r0 none).1 rfl

/-- C7: the shadow request built by writeHeader carries X-Forwarded-For equal
to the host portion of the inbound peer address, appended after the
comma-space-joined prior chain when the inbound request already carries
one. -/
theorem xff_chain_appended (req : Request) (uh : String) (allowed : List String)
    (host : String) (hsp : splitHostPort req.remoteAddr = some host) :
    hGet (writeHeader001 req uh allowed) "X-Forwarded-For" =
      match hLookup req.header "X-Forwarded-For" with
      | some prior => String.intercalate ", " prior ++ ", " ++ host
      | none => host := by
  unfold writeHeader001 finishForwardHeader
  rw [hGet_setXfProto_ne req _ "X-Forwarded-For" (by decide),
    hGet_hSet_ne _ "X-Forwarded-Uri" req.requestURI "X-Forwarded-For" (by decide),
    hGet_hSet_ne _ "X-Forwarded-Host" req.host "X-Forwarded-For" (by decide),
    hGet_hSet_ne _ "X-Forwarded-Method" req.method "X-Forwarded-For" (by decide)]
  unfold setXffHeader
  rw [hsp]
  exact hGet_hSet_self _ "X-Forwarded-For" _ (by decide)

/-- Witness for C7: prior chain 1.1.1.1 and peer 2.2.2.2 yield the chain
with the new peer appended after a comma and space. -/
theorem xff_chain_appended_witness :
    hGet (writeHeader001 r0 "auth.example" []) "X-Forwarded-For" =
      "1.1.1.1, 2.2.2.2" := by
  rw [xff_chain_appended r0 "auth.example" [] "2.2.2.2" (by decide)]
  decide

/-- C1 (amended): a dispatch that succeeds with a status on the configured
failure list, outside the 2xx-with-zero-content-length pass case, relays the
status, allowlisted headers and (positive-length) body without invoking the
downstream handler only under the abort policy; under the ignore policy the
downstream handler is invoked instead. -/
theorem failureStatus_relay_policy (f : Config) (r : Request) (resp : AuthResponse)
    (hmem : resp.statusCode ∈ f.failureStatusCode)
    (hnp : ¬(200 ≤ resp.statusCode ∧ resp.statusCode < 300 ∧ resp.contentLength = 0)) :
    (f.failurePolicy = "abort" →
      Event.wroteHeader resp.statusCode ∈ serveHTTP f r (.ok resp) ∧
      (∀ r2, Event.nextInvoked r2 ∉ serveHTTP f r (.ok resp)) ∧
      (0 < resp.contentLength → Event.bodyWrite resp.body ∈ serveHTTP f r (.ok resp)) ∧
      (∀ k, k ∈ f.responseHeaders → hGet resp.header k ≠ "" →
        Event.setRespHeader k (hGet resp.header k) ∈ serveHTTP f r (.ok resp))) ∧
    (f.failurePolicy = "ignore" →
      serveHTTP f r (.ok resp) = [Event.logged resp.status, Event.nextInvoked r]) := by
  have htrace : serveHTTP f r (.ok resp) =
      Event.logged resp.status ::
        (if f.failurePolicy = "ignore" then [Event.nextInvoked r]
         else relayEvents f resp) := by
    simp only [serveHTTP, if_neg hnp, if_pos hmem]
  constructor
  · intro hab
    have hni : ¬f.failurePolicy = "ignore" := by
      rw [hab]; decide
    rw [htrace, if_neg hni]
    refine ⟨List.mem_cons_of_mem _ (wroteHeader_mem_relayEvents f resp), ?_, ?_, ?_⟩
    · intro r2 hm
      rcases List.mem_cons.mp hm with he | hm2
      · cases he
      · exact nextInvoked_not_mem_relayEvents f resp r2 hm2
    · intro hcl
      exact List.mem_cons_of_mem _ (bodyWrite_mem_relayEvents f resp hcl)
    · intro k hk hne
      exact List.mem_cons_of_mem _ (setRespHeader_mem_relayEvents f resp k hk hne)
  · intro hig
    rw [htrace, if_pos hig]

/-- Witness for C1 (amended) at the abort policy: the failing status 503 is
written to the caller. -/
theorem failureStatus_relay_policy_witness :
    Event.wroteHeader 503 ∈ serveHTTP cfgAbort503 r0 (.ok resp503) :=
  ((failureStatus_relay_policy cfgAbort503 r0 resp503 (by decide) (by decide)).1 rfl).1

/-- Counterexample to C1 as stated: with failurePolicy ignore and 503 on the
failure list, a 503 authority response makes the decision flow invoke the
downstream handler rather than relay the status to the caller. -/
theorem failureStatus_ignore_passes_downstream :
    serveHTTP cfgIgnore503 r0 (.ok resp503) =
      [Event.logged "503 Service Unavailable", Event.nextInvoked r0] := by decide

/-- C4 (amended): a 2xx authority response with positive content length whose
status is not on the failure list is relayed: the caller receives the status
and the exact body, the body is closed, and the downstream handler is not
invoked. -/
theorem success_with_body_relayed (f : Config) (r : Request) (resp : AuthResponse)
    (_h2 : 200 ≤ resp.statusCode) (_h3 : resp.statusCode < 300)
    (hcl : 0 < resp.contentLength) (hnf : resp.statusCode ∉ f.failureStatusCode) :
    Event.wroteHeader resp.statusCode ∈ serveHTTP f r (.ok resp) ∧
    Event.bodyWrite resp.body ∈ serveHTTP f r (.ok resp) ∧
    Event.bodyClose ∈ serveHTTP f r (.ok resp) ∧
    (∀ r2, Event.nextInvoked r2 ∉ serveHTTP f r (.ok resp)) := by
  have hnp : ¬(200 ≤ resp.statusCode ∧ resp.statusCode < 300 ∧ resp.contentLength = 0) := by
    rintro ⟨_, _, h0⟩
    omega
  have htrace : serveHTTP f r (.ok resp) = relayEvents f resp := by
    simp only [serveHTTP, if_neg hnp, if_neg hnf]
  rw [htrace]
  exact ⟨wroteHeader_mem_relayEvents f resp, bodyWrite_mem_relayEvents f resp hcl,
    bodyClose_mem_relayEvents f resp hcl,
    fun r2 => nextInvoked_not_mem_relayEvents f resp r2⟩

/-- Witness for C4 (amended): a 200 response with a three-byte body under the
default configuration is relayed to the caller. -/
theorem success_with_body_relayed_witness :
    Event.bodyWrite "abc" ∈ serveHTTP cfg0 r0 (.ok resp200) :=
  (success_with_body_relayed cfg0 r0 resp200 (by decide) (by decide) (by decide)
    (by decide)).2.1

/-- Counterexample to C4 as stated: a 200 response with nonzero (unknown,
minus one) content length has its status written but its body is neither
copied nor closed. -/
theorem unknown_length_body_not_copied :
    Event.wroteHeader 200 ∈ serveHTTP cfg0 r0 (.ok respChunked) ∧
    Event.bodyWrite "abc" ∉ serveHTTP cfg0 r0 (.ok respChunked) ∧
    Event.bodyClose ∉ serveHTTP cfg0 r0 (.ok respChunked) := by decide

/-- C3 (amended): the fixed hop-by-hop headers are all absent from the shadow
request dispatched to the authority, and the Connection header and every
header nominated inside a Connection value are absent from the sanitized
inbound request as handed to the decision flow. -/
theorem hop_sanitization_scope (f : Config) (r : Request) (uh : String) :
    (∀ hh ∈ hopHeaders, hLookup (shadowOfInbound f r uh) hh = none) ∧
    hLookup (sanitize r.header) "Connection" = none ∧
    (∀ v ∈ hIndex r.header "Connection", ∀ t ∈ splitComma v,
      trimString t ≠ "" →
        hLookup (sanitize r.header) (canonicalKey (trimString t)) = none) := by
  refine ⟨?_, hLookup_sanitize_connection r.header, ?_⟩
  · intro hh hmem
    exact shadowHeader_no_hop f _ uh hh hmem
  · intro v hv t ht hne
    exact sanitize_nominated r.header v t hv ht hne

/-- Witness for C3 (amended): Connection is absent from the shadow request,
and the nominated header Foo is absent from the sanitized inbound request. -/
theorem hop_sanitization_scope_witness :
    hLookup (shadowOfInbound cfg0 rConn "auth.example") "Connection" = none ∧
    hLookup (sanitize rConn.header) (canonicalKey (trimString " Foo")) = none :=
  ⟨(hop_sanitization_scope cfg0 rConn "auth.example").1 "Connection" (by decide),
   (hop_sanitization_scope cfg0 rConn "auth.example").2.2 "Keep-Alive, Foo"
     (by decide) " Foo" (by decide) (by decide)⟩

/-- Counterexample to C3 as stated: an inbound Keep-Alive header (a fixed
hop-by-hop header) with no Connection header survives sanitization and is
seen by the downstream handler on the pass path. -/
theorem keepAlive_reaches_downstream :
    handle cfg0 rKeepAlive (.ok resp204) = [Event.nextInvoked rKeepAlive] ∧
    hLookup rKeepAlive.header "Keep-Alive" = some ["300"] := by decide

/-- C6: with an empty allowlist the copy loop assigns append of the freshly
read inbound value list onto the ranged value list of the same key, so every
inbound header value list is doubled on the shadow request rather than
copied verbatim: the single inbound value text becomes text, text. -/
theorem copyAll_duplicates_values :
    hLookup (writeHeader001 rAccept "auth.example" []) "Accept" =
      some ["text", "text"] := by decide

/-- C9: on the pass path (2xx with zero content length) the decision flow
invokes the downstream handler and never closes the authority response body;
the only body close in the code sits on the relay path behind a positive
content length. -/
theorem pass_path_body_unclosed :
    serveHTTP cfg0 r0 (.ok resp204) = [Event.nextInvoked r0] ∧
    Event.bodyClose ∉ serveHTTP cfg0 r0 (.ok resp204) := by decide

/-- C10 (amended): for every nonempty allowlist the two writeHeader variants
produce the same shadow-request header map from a pool-fresh (nil header)
request; the empty-allowlist case is where they differ. -/
theorem writeHeader_variants_agree_allowlist (req : Request) (uh : String)
    (allowed : List String) (hne : allowed ≠ []) :
    writeHeader000 req none uh allowed = some (writeHeader001 req uh allowed) := by
  have hie : allowed.isEmpty = false := by
    cases allowed with
    | nil => exact absurd rfl hne
    | cons x xs => rfl
  simp [writeHeader000, writeHeader001, hie]

/-- Witness for C10 (amended) at a one-element allowlist. -/
theorem writeHeader_variants_agree_allowlist_witness :
    writeHeader000 r0 none "auth.example" ["Accept"] =
      some (writeHeader001 r0 "auth.example" ["Accept"]) :=
  writeHeader_variants_agree_allowlist r0 "auth.example" ["Accept"] (by decide)

/-- Counterexample to C10 as stated: on the empty allowlist with a pool-fresh
nil header map, the part_000 variant faults (writes to a nil map, modelled
as none) while the part_001 variant produces a populated map. -/
theorem writeHeader000_faults_pool_fresh :
    writeHeader000 rAccept none "auth.example" [] = none ∧
    hLookup (writeHeader001 rAccept "auth.example" []) "Host" =
      some ["auth.example"] := by decide

end ForwardFilter
